import Mathlib

/-!
Verification of the Blackhole-Sim cinematic camera controller
(src/src/camera/CinematicCamera.cpp) against its natural-language
specification.  The controller's state, its per-frame update, the
Rodrigues rotation primitive, the Gram-Schmidt basis repair and the
damped input smoother are embedded over the reals; the theorems below
settle the frozen claims about them.

The Vector3 / Camera linear-algebra primitives are declared in headers
that are not part of the packaged sources; they are modelled from the
specification (plain component-wise vector algebra, and a look-at that
holds the last good frame on a degenerate target).
-/

namespace BlackholeSim

noncomputable section

/-- Modelled from the spec: `Vector3` is an (x, y, z) real-valued triple
with immutable-value semantics. -/
@[ext]
structure Vector3 where
  x : ℝ
  y : ℝ
  z : ℝ

/-- Modelled from the spec: component-wise vector addition. -/
def Vector3.add (a b : Vector3) : Vector3 :=
  ⟨a.x + b.x, a.y + b.y, a.z + b.z⟩

/-- Modelled from the spec: component-wise vector subtraction. -/
def Vector3.sub (a b : Vector3) : Vector3 :=
  ⟨a.x - b.x, a.y - b.y, a.z - b.z⟩

/-- Modelled from the spec: scaling a vector by a real. -/
def Vector3.smul (a : Vector3) (c : ℝ) : Vector3 :=
  ⟨a.x * c, a.y * c, a.z * c⟩

/-- Modelled from the spec: the Euclidean dot product. -/
def Vector3.dot (a b : Vector3) : ℝ :=
  a.x * b.x + a.y * b.y + a.z * b.z

/-- Modelled from the spec: the cross product. -/
def Vector3.cross (a b : Vector3) : Vector3 :=
  ⟨a.y * b.z - a.z * b.y, a.z * b.x - a.x * b.z, a.x * b.y - a.y * b.x⟩

/-- Modelled from the spec: Euclidean length. -/
def Vector3.length (a : Vector3) : ℝ :=
  Real.sqrt (a.dot a)

/-- Modelled from the spec: `normalized` divides a vector by its length
(over the reals, a zero vector normalizes to the zero vector). -/
def Vector3.normalized (a : Vector3) : Vector3 :=
  a.smul (1 / a.length)

/-- The world origin, the simulated black hole's center. -/
def origin : Vector3 := ⟨0, 0, 0⟩

/-- World up, used as the secondary reference axis. -/
def worldUp : Vector3 := ⟨0, 1, 0⟩

-- ### Basic vector algebra lemmas

theorem Vector3.dot_comm (a b : Vector3) : a.dot b = b.dot a := by
  unfold Vector3.dot; ring

theorem Vector3.dot_self_nonneg (a : Vector3) : 0 ≤ a.dot a := by
  unfold Vector3.dot
  nlinarith [mul_self_nonneg a.x, mul_self_nonneg a.y, mul_self_nonneg a.z]

theorem Vector3.length_nonneg (a : Vector3) : 0 ≤ a.length :=
  Real.sqrt_nonneg _

theorem Vector3.dot_smul_right (a b : Vector3) (c : ℝ) :
    a.dot (b.smul c) = c * a.dot b := by
  unfold Vector3.dot Vector3.smul; ring

theorem Vector3.dot_smul_left (a b : Vector3) (c : ℝ) :
    (a.smul c).dot b = c * a.dot b := by
  unfold Vector3.dot Vector3.smul; ring

theorem Vector3.smul_smul (a : Vector3) (c d : ℝ) :
    (a.smul c).smul d = a.smul (c * d) := by
  unfold Vector3.smul; ext <;> ring

theorem Vector3.smul_one (a : Vector3) : a.smul 1 = a := by
  unfold Vector3.smul; ext <;> ring

theorem Vector3.dot_cross_left (a b : Vector3) : (a.cross b).dot a = 0 := by
  unfold Vector3.dot Vector3.cross; ring

theorem Vector3.dot_cross_right (a b : Vector3) : (a.cross b).dot b = 0 := by
  unfold Vector3.dot Vector3.cross; ring

/-- Lagrange identity for the cross product. -/
theorem Vector3.dot_cross_self (a b : Vector3) :
    (a.cross b).dot (a.cross b) = a.dot a * b.dot b - a.dot b ^ 2 := by
  unfold Vector3.dot Vector3.cross; ring

theorem Vector3.eq_zero_of_dot_self_eq_zero {a : Vector3} (h : a.dot a = 0) :
    a = ⟨0, 0, 0⟩ := by
  unfold Vector3.dot at h
  have hx : a.x = 0 := by nlinarith [mul_self_nonneg a.x, mul_self_nonneg a.y, mul_self_nonneg a.z]
  have hy : a.y = 0 := by nlinarith [mul_self_nonneg a.x, mul_self_nonneg a.y, mul_self_nonneg a.z]
  have hz : a.z = 0 := by nlinarith [mul_self_nonneg a.x, mul_self_nonneg a.y, mul_self_nonneg a.z]
  ext <;> assumption

theorem Vector3.length_of_unit {a : Vector3} (h : a.dot a = 1) : a.length = 1 := by
  unfold Vector3.length; rw [h]; exact Real.sqrt_one

theorem Vector3.normalized_of_unit {a : Vector3} (h : a.dot a = 1) :
    a.normalized = a := by
  unfold Vector3.normalized
  rw [Vector3.length_of_unit h]
  norm_num [Vector3.smul_one]

/-- A vector whose length passes the 0.001 guard has positive dot square. -/
theorem Vector3.dot_self_pos_of_length {a : Vector3} (h : (0.001 : ℝ) ≤ a.length) :
    0 < a.dot a := by
  have h1 : 0 < a.length := lt_of_lt_of_le (by norm_num) h
  unfold Vector3.length at h1
  exact Real.sqrt_pos.mp h1

theorem Vector3.dot_normalized_self {a : Vector3} (h : 0 < a.dot a) :
    a.normalized.dot a.normalized = 1 := by
  unfold Vector3.normalized
  rw [Vector3.dot_smul_left, Vector3.dot_smul_right]
  unfold Vector3.length
  have hs : Real.sqrt (a.dot a) * Real.sqrt (a.dot a) = a.dot a :=
    Real.mul_self_sqrt h.le
  have hne : Real.sqrt (a.dot a) ≠ 0 := ne_of_gt (Real.sqrt_pos.mpr h)
  field_simp

theorem Vector3.normalized_dot_orth {a b : Vector3} (h : a.dot b = 0) :
    a.normalized.dot b = 0 := by
  unfold Vector3.normalized
  rw [Vector3.dot_smul_left, h, mul_zero]

/-- Dotting a vector with its own normalization is nonnegative. -/
theorem Vector3.dot_normalized_nonneg (a : Vector3) :
    0 ≤ a.dot a.normalized := by
  unfold Vector3.normalized
  rw [Vector3.dot_smul_right]
  have h1 : 0 ≤ 1 / a.length := one_div_nonneg.mpr a.length_nonneg
  exact mul_nonneg h1 a.dot_self_nonneg

-- ### The Rodrigues rotation primitive (CinematicCamera.cpp, rotateAroundAxis)

/-- `rotateAroundAxis` from the source: returns the vector unchanged when
the angle is zero or the axis is degenerate, otherwise applies Rodrigues'
rotation formula with the normalized axis. -/
def rotateAroundAxis (vec axis : Vector3) (angle : ℝ) : Vector3 :=
  if angle = 0 ∨ axis.length < 0.001 then vec
  else
    let normalizedAxis := axis.normalized
    let cosAngle := Real.cos angle
    let sinAngle := Real.sin angle
    let crossProduct := normalizedAxis.cross vec
    let dotProduct := normalizedAxis.dot vec
    ((vec.smul cosAngle).add (crossProduct.smul sinAngle)).add
      (normalizedAxis.smul (dotProduct * (1 - cosAngle)))

/-- The algebraic heart of the rotation: with a unit axis and
`c² + s² = 1`, Rodrigues' formula preserves dot products. -/
theorem rodrigues_dot (a b n : Vector3) (c s : ℝ)
    (hcs : c ^ 2 + s ^ 2 = 1) (hn : n.dot n = 1) :
    (((a.smul c).add ((n.cross a).smul s)).add (n.smul (n.dot a * (1 - c)))).dot
      (((b.smul c).add ((n.cross b).smul s)).add (n.smul (n.dot b * (1 - c)))) =
      a.dot b := by
  obtain ⟨a1, a2, a3⟩ := a
  obtain ⟨b1, b2, b3⟩ := b
  obtain ⟨n1, n2, n3⟩ := n
  simp only [Vector3.dot, Vector3.cross, Vector3.smul, Vector3.add] at *
  linear_combination
    ((a1 * b1 + a2 * b2 + a3 * b3) -
        (n1 * a1 + n2 * a2 + n3 * a3) * (n1 * b1 + n2 * b2 + n3 * b3)) * hcs +
      ((a1 * b1 + a2 * b2 + a3 * b3) * s ^ 2 +
        (n1 * a1 + n2 * a2 + n3 * a3) * (n1 * b1 + n2 * b2 + n3 * b3) * (1 - c) ^ 2) * hn

/-- `rotateAroundAxis` preserves dot products of any two vectors rotated
about the same axis by the same angle. -/
theorem dot_rotateAroundAxis (a b axis : Vector3) (angle : ℝ) :
    (rotateAroundAxis a axis angle).dot (rotateAroundAxis b axis angle) = a.dot b := by
  unfold rotateAroundAxis
  split
  · rfl
  · rename_i hguard
    push_neg at hguard
    have hlen : (0.001 : ℝ) ≤ axis.length := hguard.2
    have hpos : 0 < axis.dot axis := Vector3.dot_self_pos_of_length hlen
    have hn : axis.normalized.dot axis.normalized = 1 := Vector3.dot_normalized_self hpos
    have hcs : Real.cos angle ^ 2 + Real.sin angle ^ 2 = 1 := Real.cos_sq_add_sin_sq angle
    exact rodrigues_dot a b axis.normalized (Real.cos angle) (Real.sin angle) hcs hn

/-- Rotating a unit vector about itself leaves it unchanged. -/
theorem rotateAroundAxis_self_axis (u : Vector3) (angle : ℝ) (hu : u.dot u = 1) :
    rotateAroundAxis u u angle = u := by
  unfold rotateAroundAxis
  split
  · rfl
  · rw [Vector3.normalized_of_unit hu]
    obtain ⟨u1, u2, u3⟩ := u
    simp only [Vector3.dot] at hu
    simp only [Vector3.dot, Vector3.cross, Vector3.smul, Vector3.add]
    ext
    · linear_combination (u1 * (1 - Real.cos angle)) * hu
    · linear_combination (u2 * (1 - Real.cos angle)) * hu
    · linear_combination (u3 * (1 - Real.cos angle)) * hu

/-- C10 — `rotateAroundAxis` preserves vector length: for every vector,
axis and angle, the rotated vector has exactly the length of the input
(the degenerate guard returns the vector unchanged, and Rodrigues'
formula with the normalized axis is an isometry over the reals). -/
theorem rotateAroundAxis_isometry (v axis : Vector3) (angle : ℝ) :
    (rotateAroundAxis v axis angle).length = v.length := by
  unfold Vector3.length
  rw [dot_rotateAroundAxis]

-- ### Controller state (CinematicCamera.hpp as used by CinematicCamera.cpp)

/-- The per-frame snapshot of the movement/rotation keys the controller
reads (SDL scancodes D, A, W, S, L, J, I, K, O, U mapped to semantic
axes). -/
structure Keys where
  d : Bool
  a : Bool
  w : Bool
  s : Bool
  l : Bool
  j : Bool
  i : Bool
  k : Bool
  o : Bool
  u : Bool

/-- The five camera modes. -/
inductive CinematicMode where
  | Manual
  | SmoothOrbit
  | WaveMotion
  | RisingSpiral
  | CloseFlyby
deriving DecidableEq

/-- The integer the mode enum casts to. -/
def CinematicMode.toNat : CinematicMode → ℕ
  | .Manual => 0
  | .SmoothOrbit => 1
  | .WaveMotion => 2
  | .RisingSpiral => 3
  | .CloseFlyby => 4

/-- The mode a (0..4) integer casts back to. -/
def CinematicMode.fromNat : ℕ → CinematicMode
  | 0 => .Manual
  | 1 => .SmoothOrbit
  | 2 => .WaveMotion
  | 3 => .RisingSpiral
  | _ => .CloseFlyby

/-- The camera entity: position plus the forward/right/up frame. -/
structure Camera where
  position : Vector3
  forward : Vector3
  right : Vector3
  up : Vector3

/-- The look-at frame computed from a direction vector, as the source
builds it: forward along the direction, right from forward and world up
(falling back to the x axis when forward is parallel to world up), up
closing the frame. -/
def lookFrame (toTarget : Vector3) : Vector3 × Vector3 × Vector3 :=
  let f := toTarget.normalized
  let r0 := (f.cross worldUp).normalized
  let r := if r0.length < 0.001 then (f.cross ⟨1, 0, 0⟩).normalized else r0
  let u := (r.cross f).normalized
  (f, r, u)

/-- Modelled from the spec: `Camera::lookAt` (declared in a header not
under src/) orients the camera toward a target with the same
forward/right/up construction the controller uses, and on a degenerate
target (position within 0.001 of it) leaves the previous frame untouched
— the spec's hold-last-good-state policy. -/
def Camera.lookAt (c : Camera) (target : Vector3) : Camera :=
  let toTarget := target.sub c.position
  if toTarget.length < 0.001 then c
  else
    let fru := lookFrame toTarget
    { c with forward := fru.1, right := fru.2.1, up := fru.2.2 }

/-- The controller state.  The five `current…Speed` fields are the
function-local static smoothing variables of the source, which persist
across frames. -/
structure CinematicCamera where
  cam : Camera
  initialPos : Vector3
  mode : CinematicMode
  orbitAngle : ℝ
  orbitRadius : ℝ
  cinematicTime : ℝ
  rotationSpeed : ℝ
  currentSpeedForward : ℝ
  currentSpeedUp : ℝ
  currentRotSpeedUp : ℝ
  currentRotSpeedRight : ℝ
  currentRotSpeedForward : ℝ

-- ### Damped input smoother (updateManualMode / updateCameraLookDirection)

/-- Base translational speed (`baseMoveSpeed`). -/
def baseMoveSpeed : ℝ := 0.8

/-- Translational easing factor (`moveEasingFactor`). -/
def moveEasingFactor : ℝ := 12

/-- Rotational easing factor (`rotationEasingFactor`). -/
def rotationEasingFactor : ℝ := 15

/-- One exponential-smoothing step:
`current += (target - current) * (1 - exp(-easingFactor * dt))`. -/
def smoothTowards (cur target ease dt : ℝ) : ℝ :=
  cur + (target - cur) * (1 - Real.exp (-ease * dt))

/-- Target forward speed: `+base` while D is down, overwritten by `-base`
while A is down (sequential assignments, not a sum). -/
def targetSpeedForward (keys : Keys) : ℝ :=
  let t0 : ℝ := 0
  let t1 := if keys.d then baseMoveSpeed else t0
  if keys.a then -baseMoveSpeed else t1

/-- Target up speed: `+base` while W is down, overwritten by `-base`
while S is down. -/
def targetSpeedUp (keys : Keys) : ℝ :=
  let t0 : ℝ := 0
  let t1 := if keys.w then baseMoveSpeed else t0
  if keys.s then -baseMoveSpeed else t1

/-- Target yaw rate about up: L subtracts, J adds (a running sum). -/
def targetRotSpeedUp (st : CinematicCamera) (keys : Keys) : ℝ :=
  let t0 : ℝ := 0
  let t1 := if keys.l then t0 - st.rotationSpeed else t0
  if keys.j then t1 + st.rotationSpeed else t1

/-- Target pitch rate about right: I adds, K subtracts. -/
def targetRotSpeedRight (st : CinematicCamera) (keys : Keys) : ℝ :=
  let t0 : ℝ := 0
  let t1 := if keys.i then t0 + st.rotationSpeed else t0
  if keys.k then t1 - st.rotationSpeed else t1

/-- Target roll rate about forward: O subtracts, U adds. -/
def targetRotSpeedForward (st : CinematicCamera) (keys : Keys) : ℝ :=
  let t0 : ℝ := 0
  let t1 := if keys.o then t0 - st.rotationSpeed else t0
  if keys.u then t1 + st.rotationSpeed else t1

/-- The exponential smoothing of the three rotational rates at the top of
`updateCameraLookDirection`. -/
def stepRotSpeeds (st : CinematicCamera) (keys : Keys) (dt : ℝ) : CinematicCamera :=
  { st with
    currentRotSpeedUp :=
      smoothTowards st.currentRotSpeedUp (targetRotSpeedUp st keys) rotationEasingFactor dt
    currentRotSpeedRight :=
      smoothTowards st.currentRotSpeedRight (targetRotSpeedRight st keys) rotationEasingFactor dt
    currentRotSpeedForward :=
      smoothTowards st.currentRotSpeedForward (targetRotSpeedForward st keys) rotationEasingFactor dt }

-- ### Incremental rotations and Gram-Schmidt repair

/-- Rotation about the up axis: forward and right turn, up stays, skipped
below the 1e-4 angle threshold. -/
def rotStepUp (f r u : Vector3) (a : ℝ) : Vector3 × Vector3 × Vector3 :=
  if |a| > 0.0001 then (rotateAroundAxis f u a, rotateAroundAxis r u a, u)
  else (f, r, u)

/-- Rotation about the right axis: forward and up turn, right stays. -/
def rotStepRight (f r u : Vector3) (a : ℝ) : Vector3 × Vector3 × Vector3 :=
  if |a| > 0.0001 then (rotateAroundAxis f r a, r, rotateAroundAxis u r a)
  else (f, r, u)

/-- Rotation about the forward axis: right and up turn, forward stays. -/
def rotStepForward (f r u : Vector3) (a : ℝ) : Vector3 × Vector3 × Vector3 :=
  if |a| > 0.0001 then (f, rotateAroundAxis r f a, rotateAroundAxis u f a)
  else (f, r, u)

/-- The three incremental rotations of `updateCameraLookDirection` in
source order: yaw about up, then pitch about the updated right, then
roll about the updated forward. -/
def applyRotations (f r u : Vector3) (aUp aRight aForward : ℝ) :
    Vector3 × Vector3 × Vector3 :=
  let s1 := rotStepUp f r u aUp
  let s2 := rotStepRight s1.1 s1.2.1 s1.2.2 aRight
  rotStepForward s2.1 s2.2.1 s2.2.2 aForward

/-- The normalize + Gram-Schmidt + handedness block at the end of
`updateCameraLookDirection` (forward primary; right re-orthogonalized
with world-up/x-axis fallbacks; up re-orthogonalized with a cross
fallback; up negated if the frame is left-handed). -/
def basisRepair (rotatedForward rotatedRight rotatedUp : Vector3) :
    Vector3 × Vector3 × Vector3 :=
  let f := rotatedForward.normalized
  let r1 := rotatedRight.normalized
  let u1 := rotatedUp.normalized
  let newForward := f
  let nr0 := (r1.sub (newForward.smul (newForward.dot r1))).normalized
  let newRight :=
    if nr0.length < 0.001 then
      let fb := (newForward.cross worldUp).normalized
      if fb.length < 0.001 then (newForward.cross ⟨1, 0, 0⟩).normalized else fb
    else nr0
  let nu0 :=
    ((u1.sub (newForward.smul (newForward.dot u1))).sub
      (newRight.smul (newRight.dot u1))).normalized
  let newUp := if nu0.length < 0.001 then (newRight.cross newForward).normalized else nu0
  let crossCheck := newRight.cross newForward
  let newUp2 := if crossCheck.dot newUp < 0 then newUp.smul (-1) else newUp
  (newForward, newRight, newUp2)

/-- Rotations followed by basis repair: the whole orientation pipeline
applied to a base frame. -/
def lookPipeline (fru : Vector3 × Vector3 × Vector3) (aUp aRight aForward : ℝ) :
    Vector3 × Vector3 × Vector3 :=
  let s3 := applyRotations fru.1 fru.2.1 fru.2.2 aUp aRight aForward
  basisRepair s3.1 s3.2.1 s3.2.2

/-- Writing a frame into the camera. -/
def setFrame (st : CinematicCamera) (fru : Vector3 × Vector3 × Vector3) :
    CinematicCamera :=
  { st with cam := { st.cam with forward := fru.1, right := fru.2.1, up := fru.2.2 } }

/-- `CinematicCamera::updateCameraLookDirection`: smooth the rotational
rates, pick the base frame (look-at-origin in cinematic modes, the
current frame in Manual unless it is invalid), apply the incremental
rotations and repair the basis.  When the camera position coincides with
the origin the degenerate branch calls `lookAt(origin)` and returns. -/
def updateCameraLookDirection (st : CinematicCamera) (keys : Keys) (dt : ℝ) :
    CinematicCamera :=
  let st1 := stepRotSpeeds st keys dt
  let aU := st1.currentRotSpeedUp * dt
  let aR := st1.currentRotSpeedRight * dt
  let aF := st1.currentRotSpeedForward * dt
  if st.mode ≠ CinematicMode.Manual then
    if (origin.sub st.cam.position).length < 0.001 then
      { st1 with cam := st1.cam.lookAt origin }
    else
      setFrame st1 (lookPipeline (lookFrame (origin.sub st.cam.position)) aU aR aF)
  else
    if st.cam.forward.length < 0.001 ∨ st.cam.right.length < 0.001 ∨
        st.cam.up.length < 0.001 then
      if (origin.sub st.cam.position).length < 0.001 then
        { st1 with cam := st1.cam.lookAt origin }
      else
        setFrame st1 (lookPipeline (lookFrame (origin.sub st.cam.position)) aU aR aF)
    else
      setFrame st1 (lookPipeline (st.cam.forward, st.cam.right, st.cam.up) aU aR aF)

-- ### Mode position updates and the per-frame update

/-- `CinematicCamera::updateManualMode`: smooth the two translational
speeds and move along the camera's own forward/up axes. -/
def updateManualMode (st : CinematicCamera) (keys : Keys) (dt : ℝ) : CinematicCamera :=
  let cF := smoothTowards st.currentSpeedForward (targetSpeedForward keys) moveEasingFactor dt
  let cU := smoothTowards st.currentSpeedUp (targetSpeedUp keys) moveEasingFactor dt
  let movement := ((st.cam.forward.smul cF).smul dt).add ((st.cam.up.smul cU).smul dt)
  { st with
    currentSpeedForward := cF
    currentSpeedUp := cU
    cam := { st.cam with position := st.cam.position.add movement } }

/-- `CinematicCamera::updateSmoothOrbit`. -/
def updateSmoothOrbit (st : CinematicCamera) (dt : ℝ) : CinematicCamera :=
  let angle := st.orbitAngle + 0.25 * dt
  { st with
    orbitAngle := angle
    orbitRadius := 15
    cam := { st.cam with position :=
      ⟨Real.cos angle * 15, 3 + Real.sin (angle * 0.5) * 1.5, Real.sin angle * 15⟩ } }

/-- `CinematicCamera::updateWaveMotion`. -/
def updateWaveMotion (st : CinematicCamera) (dt : ℝ) : CinematicCamera :=
  let angle := st.orbitAngle + 0.3 * dt
  { st with
    orbitAngle := angle
    cam := { st.cam with position :=
      ⟨Real.cos angle * 12, 2 + Real.sin (angle * 1.5) * 3, Real.sin (angle * 2) * 8⟩ } }

/-- `CinematicCamera::updateRisingSpiral`: spiral upward; when the
computed height passes 8.0 the height snaps back to 1.0 and the
cinematic clock restarts. -/
def updateRisingSpiral (st : CinematicCamera) (dt : ℝ) : CinematicCamera :=
  let angle := st.orbitAngle + 0.35 * dt
  let radius := 10 + Real.sin (st.cinematicTime * 0.3) * 3
  let pos : Vector3 := ⟨Real.cos angle * radius, 1 + st.cinematicTime * 0.4,
    Real.sin angle * radius⟩
  let st1 := { st with
    orbitAngle := angle
    orbitRadius := radius
    cam := { st.cam with position := pos } }
  if pos.y > 8 then
    { st1 with
      cam := { st1.cam with position := { pos with y := 1 } }
      cinematicTime := 0 }
  else st1

/-- `CinematicCamera::updateCloseFlyby`. -/
def updateCloseFlyby (st : CinematicCamera) (dt : ℝ) : CinematicCamera :=
  let angle := st.orbitAngle + 0.5 * dt
  let radius := 6 + Real.sin (angle * 0.7) * 2
  { st with
    orbitAngle := angle
    orbitRadius := radius
    cam := { st.cam with position :=
      ⟨Real.cos angle * radius, 1.5 + Real.cos (angle * 1.3) * 2, Real.sin angle * radius⟩ } }

/-- `CinematicCamera::update`: advance the cinematic clock, move the
position according to the mode, then update the look direction. -/
def update (st : CinematicCamera) (dt : ℝ) (keys : Keys) : CinematicCamera :=
  let st0 := { st with cinematicTime := st.cinematicTime + dt }
  let st1 :=
    match st0.mode with
    | CinematicMode.Manual => updateManualMode st0 keys dt
    | CinematicMode.SmoothOrbit => updateSmoothOrbit st0 dt
    | CinematicMode.WaveMotion => updateWaveMotion st0 dt
    | CinematicMode.RisingSpiral => updateRisingSpiral st0 dt
    | CinematicMode.CloseFlyby => updateCloseFlyby st0 dt
  updateCameraLookDirection st1 keys dt

/-- `CinematicCamera::cycleMode`: advance the mode modulo 5, reset the
phase accumulators, and force one look-direction update with the nominal
0.016 s timestep. -/
def cycleMode (st : CinematicCamera) (keys : Keys) : CinematicCamera :=
  let st1 := { st with
    mode := CinematicMode.fromNat ((st.mode.toNat + 1) % 5)
    cinematicTime := 0
    orbitAngle := 0 }
  updateCameraLookDirection st1 keys 0.016

/-- `CinematicCamera::reset`: restore the initial position, zero the
phase accumulators, and look back at the origin.  The smoothed speeds
are left as they are. -/
def reset (st : CinematicCamera) : CinematicCamera :=
  let st1 := { st with
    cam := { st.cam with position := st.initialPos }
    orbitAngle := 0
    cinematicTime := 0 }
  { st1 with cam := st1.cam.lookAt origin }

/-- One externally driven step: a per-frame `update` with its timestep
and key snapshot, or a `cycleMode` press. -/
inductive CamAction where
  | upd (dt : ℝ) (keys : Keys)
  | cycle (keys : Keys)

/-- Run a sequence of externally driven steps. -/
def runActions (st : CinematicCamera) : List CamAction → CinematicCamera
  | [] => st
  | CamAction.upd dt keys :: rest => runActions (update st dt keys) rest
  | CamAction.cycle keys :: rest => runActions (cycleMode st keys) rest

-- ### Orthonormal frames and their preservation

theorem Vector3.smul_zero_scalar (a : Vector3) : a.smul 0 = ⟨0, 0, 0⟩ := by
  unfold Vector3.smul; ext <;> ring

theorem Vector3.sub_zero_vec (a : Vector3) : a.sub ⟨0, 0, 0⟩ = a := by
  unfold Vector3.sub; ext <;> ring

theorem Vector3.normalized_zero : (⟨0, 0, 0⟩ : Vector3).normalized = ⟨0, 0, 0⟩ := by
  unfold Vector3.normalized Vector3.smul; ext <;> ring

theorem Vector3.length_zero_vec : (⟨0, 0, 0⟩ : Vector3).length = 0 := by
  unfold Vector3.length Vector3.dot
  norm_num

/-- An exactly orthonormal frame (over the reals). -/
def Ortho (f r u : Vector3) : Prop :=
  f.dot f = 1 ∧ r.dot r = 1 ∧ u.dot u = 1 ∧
    f.dot r = 0 ∧ f.dot u = 0 ∧ r.dot u = 0

/-- A valid camera frame: exactly orthonormal and right-handed. -/
def ValidFrame (c : Camera) : Prop :=
  Ortho c.forward c.right c.up ∧ 0 ≤ (c.right.cross c.forward).dot c.up

/-- Rotating any vector about a unit axis leaves its dot product with the
axis unchanged (the axis is a fixed point of its own rotation). -/
theorem dot_rotate_axis (v u : Vector3) (a : ℝ) (hu : u.dot u = 1) :
    (rotateAroundAxis v u a).dot u = v.dot u := by
  calc (rotateAroundAxis v u a).dot u
      = (rotateAroundAxis v u a).dot (rotateAroundAxis u u a) := by
        rw [rotateAroundAxis_self_axis u a hu]
    _ = v.dot u := dot_rotateAroundAxis v u u a

theorem ortho_rotStepUp (f r u : Vector3) (a : ℝ) (h : Ortho f r u) :
    Ortho (rotStepUp f r u a).1 (rotStepUp f r u a).2.1 (rotStepUp f r u a).2.2 := by
  obtain ⟨h1, h2, h3, h4, h5, h6⟩ := h
  unfold rotStepUp
  split
  · refine ⟨?_, ?_, ?_, ?_, ?_, ?_⟩
    · exact (dot_rotateAroundAxis f f u a).trans h1
    · exact (dot_rotateAroundAxis r r u a).trans h2
    · exact h3
    · exact (dot_rotateAroundAxis f r u a).trans h4
    · exact (dot_rotate_axis f u a h3).trans h5
    · exact (dot_rotate_axis r u a h3).trans h6
  · exact ⟨h1, h2, h3, h4, h5, h6⟩

theorem ortho_rotStepRight (f r u : Vector3) (a : ℝ) (h : Ortho f r u) :
    Ortho (rotStepRight f r u a).1 (rotStepRight f r u a).2.1 (rotStepRight f r u a).2.2 := by
  obtain ⟨h1, h2, h3, h4, h5, h6⟩ := h
  unfold rotStepRight
  split
  · refine ⟨?_, ?_, ?_, ?_, ?_, ?_⟩
    · exact (dot_rotateAroundAxis f f r a).trans h1
    · exact h2
    · exact (dot_rotateAroundAxis u u r a).trans h3
    · exact (dot_rotate_axis f r a h2).trans h4
    · exact (dot_rotateAroundAxis f u r a).trans h5
    · calc r.dot (rotateAroundAxis u r a) = (rotateAroundAxis u r a).dot r :=
            Vector3.dot_comm _ _
        _ = u.dot r := dot_rotate_axis u r a h2
        _ = r.dot u := Vector3.dot_comm _ _
        _ = 0 := h6
  · exact ⟨h1, h2, h3, h4, h5, h6⟩

theorem ortho_rotStepForward (f r u : Vector3) (a : ℝ) (h : Ortho f r u) :
    Ortho (rotStepForward f r u a).1 (rotStepForward f r u a).2.1
      (rotStepForward f r u a).2.2 := by
  obtain ⟨h1, h2, h3, h4, h5, h6⟩ := h
  unfold rotStepForward
  split
  · refine ⟨?_, ?_, ?_, ?_, ?_, ?_⟩
    · exact h1
    · exact (dot_rotateAroundAxis r r f a).trans h2
    · exact (dot_rotateAroundAxis u u f a).trans h3
    · calc f.dot (rotateAroundAxis r f a) = (rotateAroundAxis r f a).dot f :=
            Vector3.dot_comm _ _
        _ = r.dot f := dot_rotate_axis r f a h1
        _ = f.dot r := Vector3.dot_comm _ _
        _ = 0 := h4
    · calc f.dot (rotateAroundAxis u f a) = (rotateAroundAxis u f a).dot f :=
            Vector3.dot_comm _ _
        _ = u.dot f := dot_rotate_axis u f a h1
        _ = f.dot u := Vector3.dot_comm _ _
        _ = 0 := h5
    · exact (dot_rotateAroundAxis r u f a).trans h6
  · exact ⟨h1, h2, h3, h4, h5, h6⟩

theorem ortho_applyRotations (f r u : Vector3) (aU aR aF : ℝ) (h : Ortho f r u) :
    Ortho (applyRotations f r u aU aR aF).1 (applyRotations f r u aU aR aF).2.1
      (applyRotations f r u aU aR aF).2.2 := by
  unfold applyRotations
  exact ortho_rotStepForward _ _ _ _
    (ortho_rotStepRight _ _ _ _ (ortho_rotStepUp _ _ _ _ h))

/-- On an exactly orthonormal frame the repair reduces to the handedness
check alone. -/
theorem basisRepair_of_ortho (f r u : Vector3) (h : Ortho f r u) :
    basisRepair f r u = (f, r, if (r.cross f).dot u < 0 then u.smul (-1) else u) := by
  obtain ⟨h1, h2, h3, h4, h5, h6⟩ := h
  have hno : ¬((1 : ℝ) < 0.001) := by norm_num
  simp only [basisRepair]
  rw [Vector3.normalized_of_unit h1, Vector3.normalized_of_unit h2,
    Vector3.normalized_of_unit h3, h4, Vector3.smul_zero_scalar, Vector3.sub_zero_vec,
    Vector3.normalized_of_unit h2, Vector3.length_of_unit h2, if_neg hno]
  rw [h5, h6, Vector3.smul_zero_scalar, Vector3.smul_zero_scalar, Vector3.sub_zero_vec,
    Vector3.sub_zero_vec, Vector3.normalized_of_unit h3, Vector3.length_of_unit h3,
    if_neg hno]

theorem valid_basisRepair_of_ortho (f r u : Vector3) (h : Ortho f r u) :
    Ortho (basisRepair f r u).1 (basisRepair f r u).2.1 (basisRepair f r u).2.2 ∧
      0 ≤ ((basisRepair f r u).2.1.cross (basisRepair f r u).1).dot
        (basisRepair f r u).2.2 := by
  rw [basisRepair_of_ortho f r u h]
  obtain ⟨h1, h2, h3, h4, h5, h6⟩ := h
  by_cases hcf : (r.cross f).dot u < 0
  · rw [if_pos hcf]
    refine ⟨⟨h1, h2, ?_, h4, ?_, ?_⟩, ?_⟩
    · show (u.smul (-1)).dot (u.smul (-1)) = 1
      rw [Vector3.dot_smul_left, Vector3.dot_smul_right, h3]; norm_num
    · show f.dot (u.smul (-1)) = 0
      rw [Vector3.dot_smul_right, h5]; ring
    · show r.dot (u.smul (-1)) = 0
      rw [Vector3.dot_smul_right, h6]; ring
    · show 0 ≤ (r.cross f).dot (u.smul (-1))
      rw [Vector3.dot_smul_right]; linarith
  · rw [if_neg hcf]
    exact ⟨⟨h1, h2, h3, h4, h5, h6⟩, le_of_not_lt hcf⟩

/-- The look-at frame built from any direction passing the 0.001 guard is
exactly orthonormal and right-handed. -/
theorem valid_lookFrame (v : Vector3) (hv : (0.001 : ℝ) ≤ v.length) :
    Ortho (lookFrame v).1 (lookFrame v).2.1 (lookFrame v).2.2 ∧
      0 ≤ ((lookFrame v).2.1.cross (lookFrame v).1).dot (lookFrame v).2.2 := by
  have hd : 0 < v.dot v := Vector3.dot_self_pos_of_length hv
  have hf : v.normalized.dot v.normalized = 1 := Vector3.dot_normalized_self hd
  have hwu : worldUp.dot worldUp = 1 := by norm_num [worldUp, Vector3.dot]
  have hcc : (v.normalized.cross worldUp).dot (v.normalized.cross worldUp) =
      1 - (v.normalized.dot worldUp) ^ 2 := by
    rw [Vector3.dot_cross_self, hf, hwu]; ring
  -- a right vector orthogonal to forward, from either branch of the guard
  have key : ∀ r : Vector3, r.dot r = 1 → r.dot v.normalized = 0 →
      Ortho v.normalized r ((r.cross v.normalized).normalized) ∧
        0 ≤ ((r.cross v.normalized).dot ((r.cross v.normalized).normalized)) := by
    intro r hr hrf
    have hw : (r.cross v.normalized).dot (r.cross v.normalized) = 1 := by
      rw [Vector3.dot_cross_self, hr, hf, hrf]; ring
    have hu : (r.cross v.normalized).normalized.dot
        (r.cross v.normalized).normalized = 1 := by
      rw [Vector3.normalized_of_unit hw]; exact hw
    refine ⟨⟨hf, hr, hu, Vector3.dot_comm _ _ ▸ hrf, ?_, ?_⟩, ?_⟩
    · rw [Vector3.normalized_of_unit hw, Vector3.dot_comm]
      exact Vector3.dot_cross_right _ _
    · rw [Vector3.normalized_of_unit hw, Vector3.dot_comm]
      exact Vector3.dot_cross_left _ _
    · exact Vector3.dot_normalized_nonneg _
  rcases eq_or_lt_of_le (Vector3.dot_self_nonneg (v.normalized.cross worldUp)) with hc | hc
  · -- forward is parallel to world up; the x-axis fallback fires
    have hzero : v.normalized.cross worldUp = ⟨0, 0, 0⟩ :=
      Vector3.eq_zero_of_dot_self_eq_zero hc.symm
    have hy2 : v.normalized.y ^ 2 = 1 := by
      have := hcc
      rw [hzero] at this
      simp only [Vector3.dot] at this
      have hyw : v.normalized.dot worldUp = v.normalized.y := by
        simp [Vector3.dot, worldUp]
      rw [hyw] at hcc
      rw [hzero] at hcc
      simp only [Vector3.dot] at hcc
      nlinarith [hcc]
    have hx0 : v.normalized.x = 0 ∧ v.normalized.z = 0 := by
      have hff := hf
      simp only [Vector3.dot] at hff
      constructor <;> nlinarith [hy2, mul_self_nonneg v.normalized.x,
        mul_self_nonneg v.normalized.z]
    have hex : (v.normalized.cross ⟨1, 0, 0⟩).dot (v.normalized.cross ⟨1, 0, 0⟩) = 1 := by
      simp only [Vector3.dot, Vector3.cross] at hf ⊢
      nlinarith [hy2, hx0.1, hx0.2, hf]
    have hguard : ((v.normalized.cross worldUp).normalized).length < 0.001 := by
      rw [hzero, Vector3.normalized_zero, Vector3.length_zero_vec]; norm_num
    have hr : (v.normalized.cross ⟨1, 0, 0⟩).normalized.dot
        (v.normalized.cross ⟨1, 0, 0⟩).normalized = 1 := by
      rw [Vector3.normalized_of_unit hex]; exact hex
    have hrf : (v.normalized.cross ⟨1, 0, 0⟩).normalized.dot v.normalized = 0 := by
      rw [Vector3.normalized_of_unit hex]
      exact Vector3.dot_cross_left _ _
    have := key _ hr hrf
    simp only [lookFrame, if_pos hguard]
    exact this
  · -- the generic branch: right comes from forward × world-up
    have hr0 : (v.normalized.cross worldUp).normalized.dot
        (v.normalized.cross worldUp).normalized = 1 := Vector3.dot_normalized_self hc
    have hguard : ¬(((v.normalized.cross worldUp).normalized).length < 0.001) := by
      rw [Vector3.length_of_unit hr0]; norm_num
    have hrf : (v.normalized.cross worldUp).normalized.dot v.normalized = 0 := by
      unfold Vector3.normalized
      rw [Vector3.dot_smul_left, Vector3.dot_cross_left, mul_zero]
    have := key _ hr0 hrf
    simp only [lookFrame, if_neg hguard]
    exact this

/-- The whole orientation pipeline takes an orthonormal base frame to a
valid (orthonormal, right-handed) frame. -/
theorem valid_lookPipeline (fru : Vector3 × Vector3 × Vector3) (aU aR aF : ℝ)
    (h : Ortho fru.1 fru.2.1 fru.2.2) :
    Ortho (lookPipeline fru aU aR aF).1 (lookPipeline fru aU aR aF).2.1
        (lookPipeline fru aU aR aF).2.2 ∧
      0 ≤ ((lookPipeline fru aU aR aF).2.1.cross (lookPipeline fru aU aR aF).1).dot
        (lookPipeline fru aU aR aF).2.2 := by
  unfold lookPipeline
  exact valid_basisRepair_of_ortho _ _ _ (ortho_applyRotations _ _ _ _ _ _ h)

-- ### The frame invariant through every update path

theorem stepRotSpeeds_cam (st : CinematicCamera) (keys : Keys) (dt : ℝ) :
    (stepRotSpeeds st keys dt).cam = st.cam := rfl

/-- A degenerate look-at target leaves the camera untouched. -/
theorem lookAt_of_degenerate (c : Camera) (target : Vector3)
    (h : (target.sub c.position).length < 0.001) : c.lookAt target = c := by
  simp only [Camera.lookAt]
  rw [if_pos h]

theorem validFrame_setFrame (st1 : CinematicCamera) (fru : Vector3 × Vector3 × Vector3)
    (h2 : Ortho fru.1 fru.2.1 fru.2.2 ∧ 0 ≤ (fru.2.1.cross fru.1).dot fru.2.2) :
    ValidFrame (setFrame st1 fru).cam := by
  unfold ValidFrame setFrame
  exact h2

theorem validFrame_updateCameraLookDirection (st : CinematicCamera) (keys : Keys)
    (dt : ℝ) (h : ValidFrame st.cam) :
    ValidFrame (updateCameraLookDirection st keys dt).cam := by
  have hf1 : st.cam.forward.length = 1 := Vector3.length_of_unit h.1.1
  have hr1 : st.cam.right.length = 1 := Vector3.length_of_unit h.1.2.1
  have hu1 : st.cam.up.length = 1 := Vector3.length_of_unit h.1.2.2.1
  simp only [updateCameraLookDirection]
  by_cases hm : st.mode ≠ CinematicMode.Manual
  · rw [if_pos hm]
    by_cases hdeg : (origin.sub st.cam.position).length < 0.001
    · rw [if_pos hdeg]
      dsimp only
      rw [stepRotSpeeds_cam, lookAt_of_degenerate _ _ hdeg]
      exact h
    · rw [if_neg hdeg]
      exact validFrame_setFrame _ _
        (valid_lookPipeline _ _ _ _ (valid_lookFrame _ (le_of_not_lt hdeg)).1)
  · rw [if_neg hm]
    have hnv : ¬(st.cam.forward.length < 0.001 ∨ st.cam.right.length < 0.001 ∨
        st.cam.up.length < 0.001) := by
      rw [hf1, hr1, hu1]; norm_num
    rw [if_neg hnv]
    exact validFrame_setFrame _ _
      (valid_lookPipeline (st.cam.forward, st.cam.right, st.cam.up) _ _ _ h.1)

theorem validFrame_updateManualMode (st : CinematicCamera) (keys : Keys) (dt : ℝ)
    (h : ValidFrame st.cam) : ValidFrame (updateManualMode st keys dt).cam := by
  unfold updateManualMode
  exact h

theorem validFrame_updateSmoothOrbit (st : CinematicCamera) (dt : ℝ)
    (h : ValidFrame st.cam) : ValidFrame (updateSmoothOrbit st dt).cam := by
  unfold updateSmoothOrbit
  exact h

theorem validFrame_updateWaveMotion (st : CinematicCamera) (dt : ℝ)
    (h : ValidFrame st.cam) : ValidFrame (updateWaveMotion st dt).cam := by
  unfold updateWaveMotion
  exact h

theorem validFrame_updateRisingSpiral (st : CinematicCamera) (dt : ℝ)
    (h : ValidFrame st.cam) : ValidFrame (updateRisingSpiral st dt).cam := by
  unfold updateRisingSpiral
  dsimp only
  split
  · exact h
  · exact h

theorem validFrame_updateCloseFlyby (st : CinematicCamera) (dt : ℝ)
    (h : ValidFrame st.cam) : ValidFrame (updateCloseFlyby st dt).cam := by
  unfold updateCloseFlyby
  exact h

theorem validFrame_update (st : CinematicCamera) (dt : ℝ) (keys : Keys)
    (h : ValidFrame st.cam) : ValidFrame (update st dt keys).cam := by
  unfold update
  dsimp only
  cases hmode : st.mode
  all_goals simp only [hmode]
  · exact validFrame_updateCameraLookDirection _ _ _ (validFrame_updateManualMode _ _ _ h)
  · exact validFrame_updateCameraLookDirection _ _ _ (validFrame_updateSmoothOrbit _ _ h)
  · exact validFrame_updateCameraLookDirection _ _ _ (validFrame_updateWaveMotion _ _ h)
  · exact validFrame_updateCameraLookDirection _ _ _ (validFrame_updateRisingSpiral _ _ h)
  · exact validFrame_updateCameraLookDirection _ _ _ (validFrame_updateCloseFlyby _ _ h)

theorem validFrame_cycleMode (st : CinematicCamera) (keys : Keys)
    (h : ValidFrame st.cam) : ValidFrame (cycleMode st keys).cam := by
  unfold cycleMode
  exact validFrame_updateCameraLookDirection _ _ _ h

theorem validFrame_runActions (acts : List CamAction) (st : CinematicCamera)
    (h : ValidFrame st.cam) : ValidFrame (runActions st acts).cam := by
  induction acts generalizing st with
  | nil => exact h
  | cons a rest ih =>
    cases a with
    | upd dt keys => exact ih _ (validFrame_update _ _ _ h)
    | cycle keys => exact ih _ (validFrame_cycleMode _ _ h)

/-- C1 — for every sequence of update and mode-cycle calls (any modes,
any key states, any positive timesteps) starting from a valid camera
frame, after each update the forward/right/up lengths are within 1e-3 of
1, the pairwise dot products are within 1e-3 of 0, and the frame is
right-handed.  Over the exact reals the frame stays exactly orthonormal,
which implies the tolerances. -/
theorem camera_frame_invariant (st : CinematicCamera) (acts : List CamAction)
    (hv : ValidFrame st.cam)
    (hdt : ∀ dt keys, CamAction.upd dt keys ∈ acts → 0 < dt) :
    |(runActions st acts).cam.forward.length - 1| ≤ 0.001 ∧
      |(runActions st acts).cam.right.length - 1| ≤ 0.001 ∧
      |(runActions st acts).cam.up.length - 1| ≤ 0.001 ∧
      |(runActions st acts).cam.forward.dot (runActions st acts).cam.right| ≤ 0.001 ∧
      |(runActions st acts).cam.forward.dot (runActions st acts).cam.up| ≤ 0.001 ∧
      |(runActions st acts).cam.right.dot (runActions st acts).cam.up| ≤ 0.001 ∧
      0 ≤ ((runActions st acts).cam.right.cross (runActions st acts).cam.forward).dot
        (runActions st acts).cam.up := by
  obtain ⟨⟨o1, o2, o3, o4, o5, o6⟩, hh⟩ := validFrame_runActions acts st hv
  rw [Vector3.length_of_unit o1, Vector3.length_of_unit o2, Vector3.length_of_unit o3,
    o4, o5, o6]
  refine ⟨by norm_num, by norm_num, by norm_num, by norm_num, by norm_num, by norm_num, hh⟩

/-- No key held. -/
def noKeys : Keys :=
  ⟨false, false, false, false, false, false, false, false, false, false⟩

/-- A concrete valid starting state: the camera at (15, 3, 0) looking down
the negative z axis, Manual mode, everything at rest. -/
def initState : CinematicCamera where
  cam :=
    { position := ⟨15, 3, 0⟩
      forward := ⟨0, 0, -1⟩
      right := ⟨1, 0, 0⟩
      up := ⟨0, 1, 0⟩ }
  initialPos := ⟨15, 3, 0⟩
  mode := CinematicMode.Manual
  orbitAngle := 0
  orbitRadius := 15
  cinematicTime := 0
  rotationSpeed := 0.3
  currentSpeedForward := 0
  currentSpeedUp := 0
  currentRotSpeedUp := 0
  currentRotSpeedRight := 0
  currentRotSpeedForward := 0

theorem initState_validFrame : ValidFrame initState.cam := by
  constructor
  · refine ⟨?_, ?_, ?_, ?_, ?_, ?_⟩ <;>
      norm_num [initState, Ortho, Vector3.dot]
  · norm_num [initState, Vector3.dot, Vector3.cross]

/-- Witness for C1 at a concrete state and a one-update action list. -/
theorem camera_frame_invariant_witness :
    ValidFrame initState.cam ∧
      (|(runActions initState [CamAction.upd (1 / 60) noKeys]).cam.forward.length - 1| ≤
          0.001 ∧
        |(runActions initState [CamAction.upd (1 / 60) noKeys]).cam.right.length - 1| ≤
          0.001 ∧
        |(runActions initState [CamAction.upd (1 / 60) noKeys]).cam.up.length - 1| ≤
          0.001 ∧
        |(runActions initState [CamAction.upd (1 / 60) noKeys]).cam.forward.dot
            (runActions initState [CamAction.upd (1 / 60) noKeys]).cam.right| ≤ 0.001 ∧
        |(runActions initState [CamAction.upd (1 / 60) noKeys]).cam.forward.dot
            (runActions initState [CamAction.upd (1 / 60) noKeys]).cam.up| ≤ 0.001 ∧
        |(runActions initState [CamAction.upd (1 / 60) noKeys]).cam.right.dot
            (runActions initState [CamAction.upd (1 / 60) noKeys]).cam.up| ≤ 0.001 ∧
        0 ≤ ((runActions initState [CamAction.upd (1 / 60) noKeys]).cam.right.cross
              (runActions initState [CamAction.upd (1 / 60) noKeys]).cam.forward).dot
            (runActions initState [CamAction.upd (1 / 60) noKeys]).cam.up) :=
  ⟨initState_validFrame,
    camera_frame_invariant initState [CamAction.upd (1 / 60) noKeys] initState_validFrame
      (by
        intro dt keys hmem
        simp only [List.mem_singleton, CamAction.upd.injEq] at hmem
        rw [hmem.1]
        norm_num)⟩

-- ### Idempotence of the basis repair (C7)

/-- C7 — the basis-repair routine is the identity on every exactly
orthonormal right-handed frame (so each component differs by less than
1e-6 from the input), and therefore applying it twice equals applying it
once. -/
theorem basisRepair_idempotent (f r u : Vector3) (h : Ortho f r u)
    (hh : 0 ≤ (r.cross f).dot u) :
    basisRepair f r u = (f, r, u) ∧
      basisRepair (basisRepair f r u).1 (basisRepair f r u).2.1
          (basisRepair f r u).2.2 = basisRepair f r u ∧
      |(basisRepair f r u).1.x - f.x| < 0.000001 ∧
      |(basisRepair f r u).1.y - f.y| < 0.000001 ∧
      |(basisRepair f r u).1.z - f.z| < 0.000001 ∧
      |(basisRepair f r u).2.1.x - r.x| < 0.000001 ∧
      |(basisRepair f r u).2.1.y - r.y| < 0.000001 ∧
      |(basisRepair f r u).2.1.z - r.z| < 0.000001 ∧
      |(basisRepair f r u).2.2.x - u.x| < 0.000001 ∧
      |(basisRepair f r u).2.2.y - u.y| < 0.000001 ∧
      |(basisRepair f r u).2.2.z - u.z| < 0.000001 := by
  have heq : basisRepair f r u = (f, r, u) := by
    rw [basisRepair_of_ortho f r u h, if_neg (not_lt.mpr hh)]
  refine ⟨heq, ?_, ?_, ?_, ?_, ?_, ?_, ?_, ?_, ?_, ?_⟩
  · rw [heq]; exact heq
  all_goals rw [heq]; norm_num

/-- Witness for C7 at a concrete orthonormal right-handed frame. -/
theorem basisRepair_idempotent_witness :
    basisRepair ⟨0, 0, -1⟩ ⟨1, 0, 0⟩ ⟨0, 1, 0⟩ =
        ((⟨0, 0, -1⟩ : Vector3), (⟨1, 0, 0⟩ : Vector3), (⟨0, 1, 0⟩ : Vector3)) ∧
      basisRepair (basisRepair ⟨0, 0, -1⟩ ⟨1, 0, 0⟩ ⟨0, 1, 0⟩).1
          (basisRepair ⟨0, 0, -1⟩ ⟨1, 0, 0⟩ ⟨0, 1, 0⟩).2.1
          (basisRepair ⟨0, 0, -1⟩ ⟨1, 0, 0⟩ ⟨0, 1, 0⟩).2.2 =
        basisRepair ⟨0, 0, -1⟩ ⟨1, 0, 0⟩ ⟨0, 1, 0⟩ ∧
      |(basisRepair ⟨0, 0, -1⟩ ⟨1, 0, 0⟩ ⟨0, 1, 0⟩).1.x - (⟨0, 0, -1⟩ : Vector3).x| <
        0.000001 ∧
      |(basisRepair ⟨0, 0, -1⟩ ⟨1, 0, 0⟩ ⟨0, 1, 0⟩).1.y - (⟨0, 0, -1⟩ : Vector3).y| <
        0.000001 ∧
      |(basisRepair ⟨0, 0, -1⟩ ⟨1, 0, 0⟩ ⟨0, 1, 0⟩).1.z - (⟨0, 0, -1⟩ : Vector3).z| <
        0.000001 ∧
      |(basisRepair ⟨0, 0, -1⟩ ⟨1, 0, 0⟩ ⟨0, 1, 0⟩).2.1.x - (⟨1, 0, 0⟩ : Vector3).x| <
        0.000001 ∧
      |(basisRepair ⟨0, 0, -1⟩ ⟨1, 0, 0⟩ ⟨0, 1, 0⟩).2.1.y - (⟨1, 0, 0⟩ : Vector3).y| <
        0.000001 ∧
      |(basisRepair ⟨0, 0, -1⟩ ⟨1, 0, 0⟩ ⟨0, 1, 0⟩).2.1.z - (⟨1, 0, 0⟩ : Vector3).z| <
        0.000001 ∧
      |(basisRepair ⟨0, 0, -1⟩ ⟨1, 0, 0⟩ ⟨0, 1, 0⟩).2.2.x - (⟨0, 1, 0⟩ : Vector3).x| <
        0.000001 ∧
      |(basisRepair ⟨0, 0, -1⟩ ⟨1, 0, 0⟩ ⟨0, 1, 0⟩).2.2.y - (⟨0, 1, 0⟩ : Vector3).y| <
        0.000001 ∧
      |(basisRepair ⟨0, 0, -1⟩ ⟨1, 0, 0⟩ ⟨0, 1, 0⟩).2.2.z - (⟨0, 1, 0⟩ : Vector3).z| <
        0.000001 := by
  have hO : Ortho ⟨0, 0, -1⟩ ⟨1, 0, 0⟩ ⟨0, 1, 0⟩ := by
    refine ⟨?_, ?_, ?_, ?_, ?_, ?_⟩ <;> norm_num [Vector3.dot]
  have hH : (0 : ℝ) ≤ ((⟨1, 0, 0⟩ : Vector3).cross ⟨0, 0, -1⟩).dot ⟨0, 1, 0⟩ := by
    norm_num [Vector3.dot, Vector3.cross]
  exact basisRepair_idempotent _ _ _ hO hH

-- ### State bookkeeping through the orientation update

theorem lookAt_position (c : Camera) (target : Vector3) :
    (c.lookAt target).position = c.position := by
  simp only [Camera.lookAt]
  split
  · rfl
  · rfl

/-- The orientation update touches only the camera frame and the smoothed
rotation rates: mode, accumulators, position and initial position are
unchanged. -/
theorem updateCameraLookDirection_accums (st : CinematicCamera) (keys : Keys) (dt : ℝ) :
    (updateCameraLookDirection st keys dt).mode = st.mode ∧
      (updateCameraLookDirection st keys dt).orbitAngle = st.orbitAngle ∧
      (updateCameraLookDirection st keys dt).cinematicTime = st.cinematicTime ∧
      (updateCameraLookDirection st keys dt).cam.position = st.cam.position ∧
      (updateCameraLookDirection st keys dt).initialPos = st.initialPos := by
  simp only [updateCameraLookDirection]
  split
  · split
    · exact ⟨rfl, rfl, rfl, lookAt_position _ _, rfl⟩
    · exact ⟨rfl, rfl, rfl, rfl, rfl⟩
  · split
    · split
      · exact ⟨rfl, rfl, rfl, lookAt_position _ _, rfl⟩
      · exact ⟨rfl, rfl, rfl, rfl, rfl⟩
    · exact ⟨rfl, rfl, rfl, rfl, rfl⟩

-- ### Mode cycling (C5)

/-- C5 — five `cycleMode` presses from Manual return to Manual, and every
single `cycleMode` call zeroes `orbitAngle` and the cinematic clock, the
zeros still holding when the call returns (the forced look-direction
update it performs does not touch them). -/
theorem cycleMode_closure (st s2 : CinematicCamera) (k1 k2 k3 k4 k5 k : Keys)
    (h : st.mode = CinematicMode.Manual) :
    (cycleMode (cycleMode (cycleMode (cycleMode (cycleMode st k1) k2) k3) k4) k5).mode =
        CinematicMode.Manual ∧
      (cycleMode s2 k).orbitAngle = 0 ∧ (cycleMode s2 k).cinematicTime = 0 := by
  have hmode : ∀ (s : CinematicCamera) (kk : Keys),
      (cycleMode s kk).mode = CinematicMode.fromNat ((s.mode.toNat + 1) % 5) := by
    intro s kk
    simp only [cycleMode]
    rw [(updateCameraLookDirection_accums _ _ _).1]
  have hoa : ∀ (s : CinematicCamera) (kk : Keys), (cycleMode s kk).orbitAngle = 0 := by
    intro s kk
    simp only [cycleMode]
    rw [(updateCameraLookDirection_accums _ _ _).2.1]
  have hct : ∀ (s : CinematicCamera) (kk : Keys), (cycleMode s kk).cinematicTime = 0 := by
    intro s kk
    simp only [cycleMode]
    rw [(updateCameraLookDirection_accums _ _ _).2.2.1]
  refine ⟨?_, hoa s2 k, hct s2 k⟩
  rw [hmode, hmode, hmode, hmode, hmode, h]
  rfl

/-- Witness for C5 at the concrete resting state. -/
theorem cycleMode_closure_witness :
    initState.mode = CinematicMode.Manual ∧
      ((cycleMode (cycleMode (cycleMode (cycleMode (cycleMode initState noKeys) noKeys)
            noKeys) noKeys) noKeys).mode = CinematicMode.Manual ∧
        (cycleMode initState noKeys).orbitAngle = 0 ∧
        (cycleMode initState noKeys).cinematicTime = 0) :=
  ⟨rfl, cycleMode_closure initState initState noKeys noKeys noKeys noKeys noKeys noKeys rfl⟩

-- ### Rising spiral wrap (C6)

/-- The height and clock behavior of `updateRisingSpiral` in terms of the
cinematic time it reads. -/
theorem updateRisingSpiral_height (s : CinematicCamera) (dt : ℝ) :
    (1 + s.cinematicTime * 0.4 > 8 →
        (updateRisingSpiral s dt).cam.position.y = 1 ∧
          (updateRisingSpiral s dt).cinematicTime = 0) ∧
      (1 + s.cinematicTime * 0.4 ≤ 8 →
        (updateRisingSpiral s dt).cam.position.y = 1 + s.cinematicTime * 0.4 ∧
          (updateRisingSpiral s dt).cinematicTime = s.cinematicTime) := by
  simp only [updateRisingSpiral]
  constructor
  · intro hgt
    split
    · constructor
      · norm_num
      · rfl
    · rename_i hcond
      exfalso
      norm_num at hcond
      linarith
  · intro hle
    split
    · rename_i hcond
      exfalso
      norm_num at hcond
      linarith
    · constructor
      · norm_num
      · rfl

/-- C6 — in RisingSpiral mode, on every update whose computed height
`1 + elapsed·0.4` (with `elapsed` the just-advanced cinematic time)
exceeds 8, the camera y is forced to 1 and the cinematic clock resets to
0; on every update whose computed height is at most 8, the y position
equals the computed height and the clock keeps its advanced value. -/
theorem risingSpiral_wrap (st : CinematicCamera) (dt : ℝ) (keys : Keys)
    (hm : st.mode = CinematicMode.RisingSpiral) :
    (1 + (st.cinematicTime + dt) * 0.4 > 8 →
        (update st dt keys).cam.position.y = 1 ∧ (update st dt keys).cinematicTime = 0) ∧
      (1 + (st.cinematicTime + dt) * 0.4 ≤ 8 →
        (update st dt keys).cam.position.y = 1 + (st.cinematicTime + dt) * 0.4 ∧
          (update st dt keys).cinematicTime = st.cinematicTime + dt) := by
  have hacc := updateCameraLookDirection_accums
    (updateRisingSpiral { st with cinematicTime := st.cinematicTime + dt } dt) keys dt
  have hrs := updateRisingSpiral_height { st with cinematicTime := st.cinematicTime + dt } dt
  have hupd : update st dt keys =
      updateCameraLookDirection
        (updateRisingSpiral { st with cinematicTime := st.cinematicTime + dt } dt) keys dt := by
    unfold update
    dsimp only
    rw [hm]
  rw [hupd]
  constructor
  · intro hgt
    have h2 := hrs.1 hgt
    constructor
    · rw [hacc.2.2.2.1]
      exact h2.1
    · rw [hacc.2.2.1]
      exact h2.2
  · intro hle
    have h2 := hrs.2 hle
    constructor
    · rw [hacc.2.2.2.1]
      exact h2.1
    · rw [hacc.2.2.1]
      exact h2.2

/-- A concrete state sitting in RisingSpiral mode. -/
def spiralState : CinematicCamera :=
  { initState with mode := CinematicMode.RisingSpiral, cinematicTime := 20 }

/-- Witness for C6: at cinematic time 20 + 1 the computed height passes 8
and the wrap fires. -/
theorem risingSpiral_wrap_witness :
    spiralState.mode = CinematicMode.RisingSpiral ∧
      ((1 + (spiralState.cinematicTime + 1) * 0.4 > 8 →
          (update spiralState 1 noKeys).cam.position.y = 1 ∧
            (update spiralState 1 noKeys).cinematicTime = 0) ∧
        (1 + (spiralState.cinematicTime + 1) * 0.4 ≤ 8 →
          (update spiralState 1 noKeys).cam.position.y =
              1 + (spiralState.cinematicTime + 1) * 0.4 ∧
            (update spiralState 1 noKeys).cinematicTime =
              spiralState.cinematicTime + 1)) :=
  ⟨rfl, risingSpiral_wrap spiralState 1 noKeys rfl⟩

-- ### Both-keys-down target speeds (C2)

/-- Every key held down at once. -/
def allKeys : Keys :=
  ⟨true, true, true, true, true, true, true, true, true, true⟩

/-- C2 counterexample — with D and A both held, the translational
forward-axis target speed is `-0.8`, not 0: the A branch assigns after
the D branch and wins. -/
theorem both_keys_counterexample : targetSpeedForward allKeys ≠ 0 := by
  unfold targetSpeedForward allKeys baseMoveSpeed
  norm_num

/-- C2 amended — when both keys of a rotational axis are held the target
rate for that axis is 0 (the contributions are summed), but when both
keys of a translational axis are held the target speed is `-base`: the
negative-direction branch assigns last and overwrites, it does not
cancel. -/
theorem both_keys_targets (st : CinematicCamera) (keys : Keys) :
    (keys.l = true → keys.j = true → targetRotSpeedUp st keys = 0) ∧
      (keys.i = true → keys.k = true → targetRotSpeedRight st keys = 0) ∧
      (keys.o = true → keys.u = true → targetRotSpeedForward st keys = 0) ∧
      (keys.d = true → keys.a = true → targetSpeedForward keys = -baseMoveSpeed) ∧
      (keys.w = true → keys.s = true → targetSpeedUp keys = -baseMoveSpeed) := by
  refine ⟨?_, ?_, ?_, ?_, ?_⟩ <;> intro h1 h2
  · unfold targetRotSpeedUp
    rw [h1, h2]
    simp
  · unfold targetRotSpeedRight
    rw [h1, h2]
    simp
  · unfold targetRotSpeedForward
    rw [h1, h2]
    simp
  · unfold targetSpeedForward
    rw [h1, h2]
    simp
  · unfold targetSpeedUp
    rw [h1, h2]
    simp

-- ### reset() effects (C9)

/-- C9 — `reset` restores the stored initial position, zeroes both phase
accumulators, re-orients the camera to look at the origin, leaves the
mode unchanged, and does not zero any of the smoothed-velocity variables
(the source has five of them, not six as the spec's count suggests). -/
theorem reset_effects (st : CinematicCamera)
    (h : (0.001 : ℝ) ≤ (origin.sub st.initialPos).length) :
    (reset st).cam.position = st.initialPos ∧
      (reset st).mode = st.mode ∧
      (reset st).orbitAngle = 0 ∧
      (reset st).cinematicTime = 0 ∧
      (reset st).currentSpeedForward = st.currentSpeedForward ∧
      (reset st).currentSpeedUp = st.currentSpeedUp ∧
      (reset st).currentRotSpeedUp = st.currentRotSpeedUp ∧
      (reset st).currentRotSpeedRight = st.currentRotSpeedRight ∧
      (reset st).currentRotSpeedForward = st.currentRotSpeedForward ∧
      (reset st).cam.forward = (lookFrame (origin.sub st.initialPos)).1 ∧
      (reset st).cam.right = (lookFrame (origin.sub st.initialPos)).2.1 ∧
      (reset st).cam.up = (lookFrame (origin.sub st.initialPos)).2.2 := by
  unfold reset
  simp only [Camera.lookAt]
  rw [if_neg (not_lt.mpr h)]
  simp

/-- Witness for C9 at the concrete state: the stored initial position
(15, 3, 0) is far from the origin. -/
theorem reset_effects_witness :
    (0.001 : ℝ) ≤ (origin.sub initState.initialPos).length ∧
      ((reset initState).cam.position = initState.initialPos ∧
        (reset initState).mode = initState.mode ∧
        (reset initState).orbitAngle = 0 ∧
        (reset initState).cinematicTime = 0 ∧
        (reset initState).currentSpeedForward = initState.currentSpeedForward ∧
        (reset initState).currentSpeedUp = initState.currentSpeedUp ∧
        (reset initState).currentRotSpeedUp = initState.currentRotSpeedUp ∧
        (reset initState).currentRotSpeedRight = initState.currentRotSpeedRight ∧
        (reset initState).currentRotSpeedForward = initState.currentRotSpeedForward ∧
        (reset initState).cam.forward = (lookFrame (origin.sub initState.initialPos)).1 ∧
        (reset initState).cam.right = (lookFrame (origin.sub initState.initialPos)).2.1 ∧
        (reset initState).cam.up = (lookFrame (origin.sub initState.initialPos)).2.2) := by
  have h : (0.001 : ℝ) ≤ (origin.sub initState.initialPos).length := by
    have h1 : (origin.sub initState.initialPos).dot (origin.sub initState.initialPos) =
        234 := by
      norm_num [origin, initState, Vector3.sub, Vector3.dot]
    unfold Vector3.length
    rw [h1]
    have h2 : Real.sqrt 1 ≤ Real.sqrt 234 := Real.sqrt_le_sqrt (by norm_num)
    rw [Real.sqrt_one] at h2
    linarith
  exact ⟨h, reset_effects initState h⟩

-- ### Damped smoother convergence (C8)

/-- Iterating the exponential smoothing step with a fixed target, as when
one key is held (or everything is released) over consecutive frames. -/
def smoothIter (ease target dt : ℝ) : ℕ → ℝ → ℝ
  | 0, cur => cur
  | n + 1, cur => smoothIter ease target dt n (smoothTowards cur target ease dt)

/-- The smoother is an exact geometric decay of the error toward the
target. -/
theorem smoothIter_closed (ease target dt : ℝ) (n : ℕ) (cur : ℝ) :
    smoothIter ease target dt n cur - target =
      (cur - target) * Real.exp (-ease * dt) ^ n := by
  induction n generalizing cur with
  | zero => simp [smoothIter]
  | succ m ih =>
    rw [smoothIter, ih]
    unfold smoothTowards
    ring

theorem exp_twenty_bounds : (2 : ℝ) ^ 20 ≤ Real.exp 20 ∧ Real.exp 20 < 3 ^ 20 := by
  have hpow : Real.exp 20 = Real.exp 1 ^ 20 := by
    rw [← Real.exp_nat_mul]
    norm_num
  constructor
  · have h2 : (2 : ℝ) ≤ Real.exp 1 := by
      have := Real.add_one_le_exp 1
      linarith
    rw [hpow]
    exact pow_le_pow_left (by norm_num) h2 20
  · have h3 : Real.exp 1 < 3 := lt_trans Real.exp_one_lt_d9 (by norm_num)
    rw [hpow]
    exact pow_lt_pow_left h3 (Real.exp_pos 1).le (by norm_num)

/-- C8 counterexample — starting from currentSpeed 10^10, a hundred
held-key steps of the translational smoother leave the speed more than
1e-3 away from the 0.8 target: the geometric error decay only shrinks
the initial error by exp(-20). -/
theorem smoother_convergence_counterexample :
    ¬(|smoothIter moveEasingFactor baseMoveSpeed (1 / 60) 100 (10 ^ 10) -
        baseMoveSpeed| ≤ 0.001) := by
  have hEeq : Real.exp (-moveEasingFactor * (1 / 60)) ^ 100 = Real.exp (-20) := by
    rw [← Real.exp_nat_mul]
    congr 1
    norm_num [moveEasingFactor]
  rw [not_le, smoothIter_closed, hEeq]
  have h3 := exp_twenty_bounds.2
  have hpos : (0 : ℝ) < Real.exp 20 := Real.exp_pos _
  have hinv : ((3 : ℝ) ^ 20)⁻¹ < Real.exp (-20) := by
    rw [Real.exp_neg]
    exact inv_lt_inv_of_lt hpos h3
  have hbase : ((10 : ℝ) ^ 10 - baseMoveSpeed) = 9999999999.2 := by
    norm_num [baseMoveSpeed]
  have hx : (0.001 : ℝ) < ((10 : ℝ) ^ 10 - baseMoveSpeed) * Real.exp (-20) := by
    calc (0.001 : ℝ) < ((10 : ℝ) ^ 10 - baseMoveSpeed) * ((3 : ℝ) ^ 20)⁻¹ := by
          rw [hbase]; norm_num
      _ ≤ ((10 : ℝ) ^ 10 - baseMoveSpeed) * Real.exp (-20) := by
          apply mul_le_mul_of_nonneg_left hinv.le
          rw [hbase]; norm_num
  calc (0.001 : ℝ) < ((10 : ℝ) ^ 10 - baseMoveSpeed) * Real.exp (-20) := hx
    _ ≤ |((10 : ℝ) ^ 10 - baseMoveSpeed) * Real.exp (-20)| := le_abs_self _

/-- C8 amended — for every smoothed axis (easing factor at least the
translational 12, target magnitude at most the 0.8 base) and every
initial speed bounded by 500 in magnitude, 100 held-key steps of
Δt = 1/60 bring the speed within 1e-3 of the target, and 100 further
all-released steps bring it within 1e-3 of 0.  The bound on the initial
speed is what the counterexample forces; the unbounded claim fails. -/
theorem smoother_convergence (ease target cur : ℝ) (he : 12 ≤ ease)
    (ht : |target| ≤ baseMoveSpeed) (hc : |cur| ≤ 500) :
    |smoothIter ease target (1 / 60) 100 cur - target| ≤ 0.001 ∧
      |smoothIter ease 0 (1 / 60) 100 (smoothIter ease target (1 / 60) 100 cur)| ≤
        0.001 := by
  have ht8 : |target| ≤ 0.8 := le_trans ht (by norm_num [baseMoveSpeed])
  have hEpow : Real.exp (-ease * (1 / 60)) ^ 100 ≤ ((2 : ℝ) ^ 20)⁻¹ := by
    have h1 : Real.exp (-ease * (1 / 60)) ^ 100 =
        Real.exp ((100 : ℕ) * (-ease * (1 / 60))) := by
      rw [← Real.exp_nat_mul]
    rw [h1]
    have h2 : ((100 : ℕ) : ℝ) * (-ease * (1 / 60)) ≤ -20 := by
      push_cast
      linarith
    calc Real.exp (((100 : ℕ) : ℝ) * (-ease * (1 / 60))) ≤ Real.exp (-20) :=
          Real.exp_le_exp.mpr h2
      _ = (Real.exp 20)⁻¹ := Real.exp_neg _
      _ ≤ ((2 : ℝ) ^ 20)⁻¹ := inv_le_inv_of_le (by norm_num) exp_twenty_bounds.1
  have hEnn : 0 ≤ Real.exp (-ease * (1 / 60)) ^ 100 := by positivity
  have habs1 : |smoothIter ease target (1 / 60) 100 cur - target| ≤
      500.8 * ((2 : ℝ) ^ 20)⁻¹ := by
    rw [smoothIter_closed, abs_mul, abs_pow, abs_of_pos (Real.exp_pos _)]
    have hct : |cur - target| ≤ 500.8 := by
      have htri := abs_add cur (-target)
      rw [abs_neg] at htri
      calc |cur - target| = |cur + -target| := by rw [sub_eq_add_neg]
        _ ≤ |cur| + |target| := htri
        _ ≤ 500 + 0.8 := add_le_add hc ht8
        _ = 500.8 := by norm_num
    exact mul_le_mul hct hEpow hEnn (by norm_num)
  have h1 : |smoothIter ease target (1 / 60) 100 cur - target| ≤ 0.001 :=
    le_trans habs1 (by norm_num)
  refine ⟨h1, ?_⟩
  have hc1 : |smoothIter ease target (1 / 60) 100 cur| ≤ 0.801 := by
    have htri := abs_add (smoothIter ease target (1 / 60) 100 cur - target) target
    calc |smoothIter ease target (1 / 60) 100 cur|
        = |smoothIter ease target (1 / 60) 100 cur - target + target| := by
          rw [sub_add_cancel]
      _ ≤ |smoothIter ease target (1 / 60) 100 cur - target| + |target| := htri
      _ ≤ 0.001 + 0.8 := add_le_add h1 ht8
      _ ≤ 0.801 := by norm_num
  have hclosed := smoothIter_closed ease 0 (1 / 60) 100
    (smoothIter ease target (1 / 60) 100 cur)
  rw [sub_zero, sub_zero] at hclosed
  rw [hclosed, abs_mul, abs_pow, abs_of_pos (Real.exp_pos _)]
  calc |smoothIter ease target (1 / 60) 100 cur| *
        Real.exp (-ease * (1 / 60)) ^ 100 ≤ 0.801 * ((2 : ℝ) ^ 20)⁻¹ :=
        mul_le_mul hc1 hEpow hEnn (by norm_num)
    _ ≤ 0.001 := by norm_num

/-- Witness for C8 at the translational easing factor, target +0.8, from
rest. -/
theorem smoother_convergence_witness :
    ((12 : ℝ) ≤ 12 ∧ |(0.8 : ℝ)| ≤ baseMoveSpeed ∧ |(0 : ℝ)| ≤ 500) ∧
      (|smoothIter 12 0.8 (1 / 60) 100 0 - 0.8| ≤ 0.001 ∧
        |smoothIter 12 0 (1 / 60) 100 (smoothIter 12 0.8 (1 / 60) 100 0)| ≤ 0.001) :=
  ⟨⟨le_refl _, by norm_num [baseMoveSpeed, abs_le], by norm_num⟩,
    smoother_convergence 12 0.8 0 (le_refl _) (by norm_num [baseMoveSpeed, abs_le])
      (by norm_num)⟩

-- ### Degenerate orientation and cinematic look-at (C3, C4)

theorem smoothTowards_self (c e dt : ℝ) : smoothTowards c c e dt = c := by
  unfold smoothTowards
  ring

/-- When all three per-frame rotation angles are at or below the 1e-4
threshold, every incremental rotation is skipped. -/
theorem applyRotations_small (f r u : Vector3) (aU aR aF : ℝ)
    (h1 : ¬(|aU| > 0.0001)) (h2 : ¬(|aR| > 0.0001)) (h3 : ¬(|aF| > 0.0001)) :
    applyRotations f r u aU aR aF = (f, r, u) := by
  simp only [applyRotations, rotStepUp, rotStepRight, rotStepForward]
  rw [if_neg h1, if_neg h2, if_neg h3]

/-- With sub-threshold rotation angles the whole pipeline fixes a valid
frame. -/
theorem lookPipeline_small (fru : Vector3 × Vector3 × Vector3) (aU aR aF : ℝ)
    (h : Ortho fru.1 fru.2.1 fru.2.2)
    (hh : 0 ≤ (fru.2.1.cross fru.1).dot fru.2.2)
    (h1 : ¬(|aU| > 0.0001)) (h2 : ¬(|aR| > 0.0001)) (h3 : ¬(|aF| > 0.0001)) :
    lookPipeline fru aU aR aF = fru := by
  simp only [lookPipeline]
  rw [applyRotations_small _ _ _ _ _ _ h1 h2 h3]
  dsimp only
  rw [basisRepair_of_ortho _ _ _ h, if_neg (not_lt.mpr hh)]

/-- C4 amended — in a cinematic mode with a non-degenerate position, the
base frame is recomputed from the position as the look-at-origin frame
every frame; whenever the three updated smoothed rotation rates times dt
are all at or below the 1e-4 threshold (in particular whenever no
rotation key has been touched and the rates are zero), the exposed
orientation equals that look-at frame exactly.  With a rate above the
threshold the rotation IS applied on top of the look-at frame, so
rotational input does have a per-frame visible effect (see the
counterexample). -/
theorem cinematic_lookat_orientation (st : CinematicCamera) (keys : Keys) (dt : ℝ)
    (hm : st.mode ≠ CinematicMode.Manual)
    (hd : (0.001 : ℝ) ≤ (origin.sub st.cam.position).length)
    (hU : |(stepRotSpeeds st keys dt).currentRotSpeedUp * dt| ≤ 0.0001)
    (hR : |(stepRotSpeeds st keys dt).currentRotSpeedRight * dt| ≤ 0.0001)
    (hF : |(stepRotSpeeds st keys dt).currentRotSpeedForward * dt| ≤ 0.0001) :
    (updateCameraLookDirection st keys dt).cam.forward =
        (lookFrame (origin.sub st.cam.position)).1 ∧
      (updateCameraLookDirection st keys dt).cam.right =
        (lookFrame (origin.sub st.cam.position)).2.1 ∧
      (updateCameraLookDirection st keys dt).cam.up =
        (lookFrame (origin.sub st.cam.position)).2.2 := by
  have hOr := valid_lookFrame (origin.sub st.cam.position) hd
  simp only [updateCameraLookDirection]
  rw [if_pos hm, if_neg (not_lt.mpr hd)]
  rw [lookPipeline_small _ _ _ _ hOr.1 hOr.2 (not_lt.mpr hU) (not_lt.mpr hR)
    (not_lt.mpr hF)]
  exact ⟨rfl, rfl, rfl⟩

/-- C3 amended — when the camera position coincides with the origin
within 0.001, the orientation update is a no-op exactly on the paths
that attempt a look-at: every cinematic-mode update, and every Manual
update whose stored basis is invalid.  (A Manual update with a valid
basis never consults the position, and held rotation keys still rotate
the frame there — see the counterexample.)  No fault is propagated: the
update is a total function. -/
theorem degenerate_orientation_noop (st : CinematicCamera) (keys : Keys) (dt : ℝ) :
    (st.mode ≠ CinematicMode.Manual →
        (origin.sub st.cam.position).length < 0.001 →
        (updateCameraLookDirection st keys dt).cam.forward = st.cam.forward ∧
          (updateCameraLookDirection st keys dt).cam.right = st.cam.right ∧
          (updateCameraLookDirection st keys dt).cam.up = st.cam.up) ∧
      (st.mode = CinematicMode.Manual →
        (st.cam.forward.length < 0.001 ∨ st.cam.right.length < 0.001 ∨
          st.cam.up.length < 0.001) →
        (origin.sub st.cam.position).length < 0.001 →
        (updateCameraLookDirection st keys dt).cam.forward = st.cam.forward ∧
          (updateCameraLookDirection st keys dt).cam.right = st.cam.right ∧
          (updateCameraLookDirection st keys dt).cam.up = st.cam.up) := by
  constructor
  · intro hm hdeg
    simp only [updateCameraLookDirection]
    rw [if_pos hm, if_pos hdeg]
    dsimp only
    rw [stepRotSpeeds_cam, lookAt_of_degenerate _ _ hdeg]
    exact ⟨rfl, rfl, rfl⟩
  · intro hm hinv hdeg
    have hnm : ¬(st.mode ≠ CinematicMode.Manual) := by
      intro hx
      exact hx hm
    simp only [updateCameraLookDirection]
    rw [if_neg hnm, if_pos hinv, if_pos hdeg]
    dsimp only
    rw [stepRotSpeeds_cam, lookAt_of_degenerate _ _ hdeg]
    exact ⟨rfl, rfl, rfl⟩

-- ### Concrete evaluations for the C3/C4 counterexamples

/-- Only the J (positive yaw) key held. -/
def keysJ : Keys :=
  ⟨false, false, false, false, false, true, false, false, false, false⟩

/-- Manual mode, valid basis, camera sitting exactly at the origin, with
an already-built-up yaw rate of 0.3 rad/s. -/
def originState : CinematicCamera :=
  { initState with
    cam := { position := ⟨0, 0, 0⟩, forward := ⟨0, 0, -1⟩, right := ⟨1, 0, 0⟩,
             up := ⟨0, 1, 0⟩ }
    currentRotSpeedUp := 0.3 }

/-- SmoothOrbit mode at (0, 0, 15) with a built-up yaw rate of 0.3. -/
def orbitState : CinematicCamera :=
  { initState with
    cam := { position := ⟨0, 0, 15⟩, forward := ⟨0, 0, -1⟩, right := ⟨1, 0, 0⟩,
             up := ⟨0, 1, 0⟩ }
    mode := CinematicMode.SmoothOrbit
    currentRotSpeedUp := 0.3 }

/-- SmoothOrbit mode at (0, 0, 15), everything at rest. -/
def orbitRestState : CinematicCamera :=
  { initState with
    cam := { position := ⟨0, 0, 15⟩, forward := ⟨0, 0, -1⟩, right := ⟨1, 0, 0⟩,
             up := ⟨0, 1, 0⟩ }
    mode := CinematicMode.SmoothOrbit }

theorem sin_03_pos : 0 < Real.sin 0.3 := by
  apply Real.sin_pos_of_pos_of_lt_pi (by norm_num)
  have := Real.pi_gt_three
  linarith

theorem rot_forward_eval :
    rotateAroundAxis ⟨0, 0, -1⟩ ⟨0, 1, 0⟩ 0.3 = ⟨-Real.sin 0.3, 0, -Real.cos 0.3⟩ := by
  have hu : (⟨0, 1, 0⟩ : Vector3).dot ⟨0, 1, 0⟩ = 1 := by norm_num [Vector3.dot]
  have hguard : ¬((0.3 : ℝ) = 0 ∨ (⟨0, 1, 0⟩ : Vector3).length < 0.001) := by
    rw [Vector3.length_of_unit hu]
    norm_num
  simp only [rotateAroundAxis]
  rw [if_neg hguard, Vector3.normalized_of_unit hu]
  ext <;> simp [Vector3.dot, Vector3.cross, Vector3.smul, Vector3.add] <;> ring

theorem rot_right_eval :
    rotateAroundAxis ⟨1, 0, 0⟩ ⟨0, 1, 0⟩ 0.3 = ⟨Real.cos 0.3, 0, -Real.sin 0.3⟩ := by
  have hu : (⟨0, 1, 0⟩ : Vector3).dot ⟨0, 1, 0⟩ = 1 := by norm_num [Vector3.dot]
  have hguard : ¬((0.3 : ℝ) = 0 ∨ (⟨0, 1, 0⟩ : Vector3).length < 0.001) := by
    rw [Vector3.length_of_unit hu]
    norm_num
  simp only [rotateAroundAxis]
  rw [if_neg hguard, Vector3.normalized_of_unit hu]
  ext <;> simp [Vector3.dot, Vector3.cross, Vector3.smul, Vector3.add] <;> ring

theorem applyRotations_eval :
    applyRotations ⟨0, 0, -1⟩ ⟨1, 0, 0⟩ ⟨0, 1, 0⟩ 0.3 0 0 =
      ((⟨-Real.sin 0.3, 0, -Real.cos 0.3⟩ : Vector3),
        (⟨Real.cos 0.3, 0, -Real.sin 0.3⟩ : Vector3), (⟨0, 1, 0⟩ : Vector3)) := by
  have h03 : |(0.3 : ℝ)| > 0.0001 := by
    rw [abs_of_pos (by norm_num : (0 : ℝ) < 0.3)]
    norm_num
  have h00 : ¬(|(0 : ℝ)| > 0.0001) := by
    rw [abs_zero]
    norm_num
  simp only [applyRotations, rotStepUp, rotStepRight, rotStepForward]
  rw [if_pos h03]
  rw [if_neg h00]
  rw [if_neg h00]
  dsimp only
  rw [rot_forward_eval, rot_right_eval]

theorem rotated_frame_ortho :
    Ortho ⟨-Real.sin 0.3, 0, -Real.cos 0.3⟩ ⟨Real.cos 0.3, 0, -Real.sin 0.3⟩
      ⟨0, 1, 0⟩ := by
  have hs := Real.sin_sq_add_cos_sq 0.3
  refine ⟨?_, ?_, ?_, ?_, ?_, ?_⟩ <;> simp only [Vector3.dot]
  · linear_combination hs
  · linear_combination hs
  · norm_num
  · ring
  · ring
  · ring

theorem rotated_frame_noflip :
    ¬(((⟨Real.cos 0.3, 0, -Real.sin 0.3⟩ : Vector3).cross
        ⟨-Real.sin 0.3, 0, -Real.cos 0.3⟩).dot ⟨0, 1, 0⟩ < 0) := by
  have hs := Real.sin_sq_add_cos_sq 0.3
  apply not_lt.mpr
  simp only [Vector3.cross, Vector3.dot]
  nlinarith [hs]

theorem lookPipeline_eval :
    lookPipeline ((⟨0, 0, -1⟩ : Vector3), (⟨1, 0, 0⟩ : Vector3), (⟨0, 1, 0⟩ : Vector3))
        0.3 0 0 =
      ((⟨-Real.sin 0.3, 0, -Real.cos 0.3⟩ : Vector3),
        (⟨Real.cos 0.3, 0, -Real.sin 0.3⟩ : Vector3), (⟨0, 1, 0⟩ : Vector3)) := by
  simp only [lookPipeline]
  rw [applyRotations_eval]
  dsimp only
  rw [basisRepair_of_ortho _ _ _ rotated_frame_ortho, if_neg rotated_frame_noflip]

theorem stepRot_eval_up (s : CinematicCamera) (hcur : s.currentRotSpeedUp = 0.3)
    (hrs : s.rotationSpeed = 0.3) :
    (stepRotSpeeds s keysJ 1).currentRotSpeedUp = 0.3 := by
  have ht : targetRotSpeedUp s keysJ = 0.3 := by
    unfold targetRotSpeedUp keysJ
    rw [hrs]
    norm_num
  show smoothTowards s.currentRotSpeedUp (targetRotSpeedUp s keysJ)
    rotationEasingFactor 1 = 0.3
  rw [ht, hcur, smoothTowards_self]

theorem stepRot_eval_right (s : CinematicCamera) (hcur : s.currentRotSpeedRight = 0) :
    (stepRotSpeeds s keysJ 1).currentRotSpeedRight = 0 := by
  have ht : targetRotSpeedRight s keysJ = 0 := by
    unfold targetRotSpeedRight keysJ
    norm_num
  show smoothTowards s.currentRotSpeedRight (targetRotSpeedRight s keysJ)
    rotationEasingFactor 1 = 0
  rw [ht, hcur, smoothTowards_self]

theorem stepRot_eval_fwd (s : CinematicCamera) (hcur : s.currentRotSpeedForward = 0) :
    (stepRotSpeeds s keysJ 1).currentRotSpeedForward = 0 := by
  have ht : targetRotSpeedForward s keysJ = 0 := by
    unfold targetRotSpeedForward keysJ
    norm_num
  show smoothTowards s.currentRotSpeedForward (targetRotSpeedForward s keysJ)
    rotationEasingFactor 1 = 0
  rw [ht, hcur, smoothTowards_self]

theorem updLook_originState_forward :
    (updateCameraLookDirection originState keysJ 1).cam.forward =
      ⟨-Real.sin 0.3, 0, -Real.cos 0.3⟩ := by
  have hnm : ¬(originState.mode ≠ CinematicMode.Manual) := fun hx => hx rfl
  have hl1 : originState.cam.forward.length = 1 := by
    rw [show originState.cam.forward = (⟨0, 0, -1⟩ : Vector3) from rfl]
    exact Vector3.length_of_unit (by norm_num [Vector3.dot])
  have hl2 : originState.cam.right.length = 1 := by
    rw [show originState.cam.right = (⟨1, 0, 0⟩ : Vector3) from rfl]
    exact Vector3.length_of_unit (by norm_num [Vector3.dot])
  have hl3 : originState.cam.up.length = 1 := by
    rw [show originState.cam.up = (⟨0, 1, 0⟩ : Vector3) from rfl]
    exact Vector3.length_of_unit (by norm_num [Vector3.dot])
  have hinv : ¬(originState.cam.forward.length < 0.001 ∨
      originState.cam.right.length < 0.001 ∨ originState.cam.up.length < 0.001) := by
    rw [hl1, hl2, hl3]
    norm_num
  simp only [updateCameraLookDirection]
  rw [if_neg hnm, if_neg hinv]
  rw [stepRot_eval_up originState rfl rfl, stepRot_eval_right originState rfl,
    stepRot_eval_fwd originState rfl]
  rw [show originState.cam.forward = (⟨0, 0, -1⟩ : Vector3) from rfl,
    show originState.cam.right = (⟨1, 0, 0⟩ : Vector3) from rfl,
    show originState.cam.up = (⟨0, 1, 0⟩ : Vector3) from rfl]
  rw [show (0.3 : ℝ) * 1 = 0.3 from by norm_num,
    show (0 : ℝ) * 1 = 0 from by norm_num]
  rw [lookPipeline_eval]
  rfl

/-- C3 counterexample — Manual mode with a valid basis, camera exactly at
the origin, yaw key held with a built-up rate: the position is within
0.001 of the look-at target, yet the orientation update is not a no-op
(the forward vector turns by 0.3 rad). -/
theorem degenerate_orientation_counterexample :
    (origin.sub originState.cam.position).length < 0.001 ∧
      (updateCameraLookDirection originState keysJ 1).cam.forward ≠
        originState.cam.forward := by
  constructor
  · have h0 : origin.sub originState.cam.position = ⟨0, 0, 0⟩ := by
      have h1 : origin.sub originState.cam.position = ⟨0 - 0, 0 - 0, 0 - 0⟩ := rfl
      rw [h1]
      ext <;> norm_num
    rw [h0, Vector3.length_zero_vec]
    norm_num
  · rw [updLook_originState_forward,
      show originState.cam.forward = (⟨0, 0, -1⟩ : Vector3) from rfl]
    intro h
    have hx := congrArg Vector3.x h
    dsimp only at hx
    have := sin_03_pos
    linarith [hx]

theorem len15 : (⟨0, 0, -15⟩ : Vector3).length = 15 := by
  unfold Vector3.length
  rw [show (⟨0, 0, -15⟩ : Vector3).dot ⟨0, 0, -15⟩ = 225 by norm_num [Vector3.dot]]
  rw [show (225 : ℝ) = 15 ^ 2 by norm_num]
  exact Real.sqrt_sq (by norm_num)

theorem lookFrame_eval :
    lookFrame ⟨0, 0, -15⟩ =
      ((⟨0, 0, -1⟩ : Vector3), (⟨1, 0, 0⟩ : Vector3), (⟨0, 1, 0⟩ : Vector3)) := by
  have hnorm : (⟨0, 0, -15⟩ : Vector3).normalized = ⟨0, 0, -1⟩ := by
    unfold Vector3.normalized
    rw [len15]
    unfold Vector3.smul
    ext <;> norm_num
  simp only [lookFrame]
  rw [hnorm]
  rw [show (⟨0, 0, -1⟩ : Vector3).cross worldUp = ⟨1, 0, 0⟩ from by
    unfold Vector3.cross worldUp; ext <;> norm_num]
  rw [Vector3.normalized_of_unit
    (show (⟨1, 0, 0⟩ : Vector3).dot ⟨1, 0, 0⟩ = 1 by norm_num [Vector3.dot])]
  rw [if_neg (show ¬((⟨1, 0, 0⟩ : Vector3).length < 0.001) from by
    rw [Vector3.length_of_unit (by norm_num [Vector3.dot])]; norm_num)]
  rw [show (⟨1, 0, 0⟩ : Vector3).cross ⟨0, 0, -1⟩ = ⟨0, 1, 0⟩ from by
    unfold Vector3.cross; ext <;> norm_num]
  rw [Vector3.normalized_of_unit
    (show (⟨0, 1, 0⟩ : Vector3).dot ⟨0, 1, 0⟩ = 1 by norm_num [Vector3.dot])]

theorem orbit_sub_eval : origin.sub orbitState.cam.position = ⟨0, 0, -15⟩ := by
  have h1 : origin.sub orbitState.cam.position = ⟨0 - 0, 0 - 0, 0 - 15⟩ := rfl
  rw [h1]
  ext <;> norm_num

theorem updLook_orbitState_forward :
    (updateCameraLookDirection orbitState keysJ 1).cam.forward =
      ⟨-Real.sin 0.3, 0, -Real.cos 0.3⟩ := by
  have hm : orbitState.mode ≠ CinematicMode.Manual := fun h =>
    CinematicMode.noConfusion h
  have hdeg : ¬((origin.sub orbitState.cam.position).length < 0.001) := by
    rw [orbit_sub_eval, len15]
    norm_num
  simp only [updateCameraLookDirection]
  rw [if_pos hm, if_neg hdeg]
  rw [stepRot_eval_up orbitState rfl rfl, stepRot_eval_right orbitState rfl,
    stepRot_eval_fwd orbitState rfl]
  rw [orbit_sub_eval, lookFrame_eval]
  rw [show (0.3 : ℝ) * 1 = 0.3 from by norm_num,
    show (0 : ℝ) * 1 = 0 from by norm_num]
  rw [lookPipeline_eval]
  rfl

/-- C4 counterexample — in SmoothOrbit mode with the yaw key held and a
built-up rate, the exposed forward vector after the update differs from
the forced look-at-origin forward computed from the current position:
rotational input is applied on top of the look-at frame. -/
theorem cinematic_rotation_counterexample :
    (updateCameraLookDirection orbitState keysJ 1).cam.forward ≠
      (lookFrame (origin.sub orbitState.cam.position)).1 := by
  rw [updLook_orbitState_forward, orbit_sub_eval, lookFrame_eval]
  intro h
  have hx := congrArg Vector3.x h
  dsimp only at hx
  have := sin_03_pos
  linarith [hx]

/-- Witness for C4: SmoothOrbit at rest (no rotation keys ever pressed),
where the exposed frame equals the look-at frame exactly. -/
theorem cinematic_lookat_orientation_witness :
    (orbitRestState.mode ≠ CinematicMode.Manual ∧
      (0.001 : ℝ) ≤ (origin.sub orbitRestState.cam.position).length ∧
      |(stepRotSpeeds orbitRestState noKeys 1).currentRotSpeedUp * 1| ≤ 0.0001 ∧
      |(stepRotSpeeds orbitRestState noKeys 1).currentRotSpeedRight * 1| ≤ 0.0001 ∧
      |(stepRotSpeeds orbitRestState noKeys 1).currentRotSpeedForward * 1| ≤ 0.0001) ∧
      ((updateCameraLookDirection orbitRestState noKeys 1).cam.forward =
          (lookFrame (origin.sub orbitRestState.cam.position)).1 ∧
        (updateCameraLookDirection orbitRestState noKeys 1).cam.right =
          (lookFrame (origin.sub orbitRestState.cam.position)).2.1 ∧
        (updateCameraLookDirection orbitRestState noKeys 1).cam.up =
          (lookFrame (origin.sub orbitRestState.cam.position)).2.2) := by
  have hm : orbitRestState.mode ≠ CinematicMode.Manual := fun h =>
    CinematicMode.noConfusion h
  have hsub : origin.sub orbitRestState.cam.position = ⟨0, 0, -15⟩ := by
    have h1 : origin.sub orbitRestState.cam.position = ⟨0 - 0, 0 - 0, 0 - 15⟩ := rfl
    rw [h1]
    ext <;> norm_num
  have hd : (0.001 : ℝ) ≤ (origin.sub orbitRestState.cam.position).length := by
    rw [hsub, len15]
    norm_num
  have hU : (stepRotSpeeds orbitRestState noKeys 1).currentRotSpeedUp = 0 := by
    have ht : targetRotSpeedUp orbitRestState noKeys = 0 := by
      unfold targetRotSpeedUp noKeys
      norm_num
    show smoothTowards orbitRestState.currentRotSpeedUp
      (targetRotSpeedUp orbitRestState noKeys) rotationEasingFactor 1 = 0
    rw [ht, show orbitRestState.currentRotSpeedUp = 0 from rfl, smoothTowards_self]
  have hR : (stepRotSpeeds orbitRestState noKeys 1).currentRotSpeedRight = 0 := by
    have ht : targetRotSpeedRight orbitRestState noKeys = 0 := by
      unfold targetRotSpeedRight noKeys
      norm_num
    show smoothTowards orbitRestState.currentRotSpeedRight
      (targetRotSpeedRight orbitRestState noKeys) rotationEasingFactor 1 = 0
    rw [ht, show orbitRestState.currentRotSpeedRight = 0 from rfl, smoothTowards_self]
  have hF : (stepRotSpeeds orbitRestState noKeys 1).currentRotSpeedForward = 0 := by
    have ht : targetRotSpeedForward orbitRestState noKeys = 0 := by
      unfold targetRotSpeedForward noKeys
      norm_num
    show smoothTowards orbitRestState.currentRotSpeedForward
      (targetRotSpeedForward orbitRestState noKeys) rotationEasingFactor 1 = 0
    rw [ht, show orbitRestState.currentRotSpeedForward = 0 from rfl, smoothTowards_self]
  refine ⟨⟨hm, hd, by rw [hU]; norm_num, by rw [hR]; norm_num, by rw [hF]; norm_num⟩,
    cinematic_lookat_orientation orbitRestState noKeys 1 hm hd
      (by rw [hU]; norm_num) (by rw [hR]; norm_num) (by rw [hF]; norm_num)⟩

end

end BlackholeSim
